import Mathlib

/-!
Shallow embedding of the task-tracking backend's synchronization subsystem.

The embedding follows the TypeScript sources:
* `src/services/taskService.ts` — `TaskService` (task CRUD plus its direct
  `sync_queue` inserts);
* the `SyncService` source file — `addToSyncQueue`, `sync`, `updateSyncStatus`,
  `handleSyncError`, `resolveConflict`, and the queue drain query;
* `src/routes/sync.ts` — the server side of the batch exchange
  (`POST /api/sync/batch`).

Modelling conventions:
* SQLite tables become Lean lists (`tasks`, `queue`); a SQL `UPDATE ... WHERE`
  becomes a `List.map` guarded by the `WHERE` predicate, `DELETE ... WHERE`
  becomes a `List.filter` with the negated predicate, `INSERT` appends, and
  `db.get`/the `WHERE id = ?` lookup becomes `List.find?`.
* Timestamps (`Date` / ISO strings) become `Nat`; all `new Date()` calls during
  a single operation are modelled as one instant `now` passed explicitly.
* `uuidv4()` results are passed in as explicit fresh-identifier arguments.
* JavaScript `Partial<Task>` becomes a structure of `Option` fields; the JS
  spread-merge `{...a, ...b}` becomes `Option.getD` field by field.
* `ORDER BY created_at ASC` is modelled with the stable `List.insertionSort`.
-/

namespace TaskSync

/-- `sync_status` column: one of `pending | synced | error` (src/types, used
throughout `taskService.ts` and the sync service). -/
inductive SyncStatus where
  | pending
  | synced
  | error
  deriving DecidableEq, Repr

/-- Queue operation kind: `create | update | delete`. -/
inductive Op where
  | create
  | update
  | delete
  deriving DecidableEq, Repr

/-- A row of the `tasks` table (the `Task` entity of `taskService.ts`). -/
structure Task where
  id : String
  title : String
  description : String
  completed : Bool
  is_deleted : Bool
  created_at : Nat
  updated_at : Nat
  sync_status : SyncStatus
  server_id : Option String
  last_synced_at : Option Nat
  deriving DecidableEq, Repr

/-- JavaScript `Partial<Task>`: every field optionally present.  An absent key
of the JS object is `none`. -/
structure PartialTask where
  id : Option String := none
  title : Option String := none
  description : Option String := none
  completed : Option Bool := none
  is_deleted : Option Bool := none
  created_at : Option Nat := none
  updated_at : Option Nat := none
  sync_status : Option SyncStatus := none
  server_id : Option (Option String) := none
  last_synced_at : Option (Option Nat) := none
  deriving DecidableEq, Repr

/-- A full task viewed as a `Partial<Task>` with every key present
(`JSON.stringify(task)` snapshots and `{...serverData}` spreads of a full
task). -/
def toPartial (t : Task) : PartialTask :=
  { id := some t.id, title := some t.title, description := some t.description,
    completed := some t.completed, is_deleted := some t.is_deleted,
    created_at := some t.created_at, updated_at := some t.updated_at,
    sync_status := some t.sync_status, server_id := some t.server_id,
    last_synced_at := some t.last_synced_at }

/-- JavaScript `s || d` on an optional string: both `undefined` and the empty
string are falsy. -/
def jsOrS (s : Option String) (d : String) : String :=
  match s with
  | some v => if v = "" then d else v
  | none => d

/-- A row of the `sync_queue` table (`SyncQueueItem` in src/types). -/
structure SyncQueueItem where
  id : String
  task_id : String
  operation : Op
  data : PartialTask
  created_at : Nat
  retry_count : Nat
  error_message : Option String
  deriving DecidableEq, Repr

/-- The local SQLite database: the `tasks` table and the `sync_queue` table. -/
structure DBState where
  tasks : List Task
  queue : List SyncQueueItem
  deriving DecidableEq, Repr

/-- Modelled from the spec: the `sync_queue` schema (`src/db/database.ts` is not
among the provided sources) defaults `retry_count` to 0 and `created_at` to the
insertion time, per §3 of the spec ("`retry_count`: number of failed attempts so
far, starts at 0", "`created_at`: enqueue timestamp").  This constructor builds
the row produced by `TaskService`'s bare
`INSERT INTO sync_queue (id, task_id, operation, data) VALUES (?, ?, ?, ?)`. -/
def rawQueueInsert (qid taskId : String) (op : Op) (data : PartialTask) (now : Nat) :
    SyncQueueItem :=
  { id := qid, task_id := taskId, operation := op, data := data,
    created_at := now, retry_count := 0, error_message := none }

/-- `TaskService.createTask`: build the task with defaults, insert it into
`tasks`, and insert a `create` item into `sync_queue` (a bare insert — no
deletion of existing queue rows for this task). -/
def createTask (st : DBState) (newId newQueueId : String) (taskData : PartialTask)
    (now : Nat) : Task × DBState :=
  let task : Task :=
    { id := newId, title := jsOrS taskData.title "",
      description := jsOrS taskData.description "",
      completed := false, is_deleted := false, created_at := now, updated_at := now,
      sync_status := .pending, server_id := none, last_synced_at := none }
  (task,
   { tasks := st.tasks ++ [task],
     queue := st.queue ++ [rawQueueInsert newQueueId task.id .create (toPartial task) now] })

/-- The merged object `{...existing, ...updates, updated_at, sync_status: 'pending'}`
built by `TaskService.updateTask` (this is the returned value and the queue
snapshot; only some of its fields reach the `UPDATE` statement). -/
def mergeTask (existing : Task) (updates : PartialTask) (now : Nat) : Task :=
  { id := updates.id.getD existing.id,
    title := updates.title.getD existing.title,
    description := updates.description.getD existing.description,
    completed := updates.completed.getD existing.completed,
    is_deleted := updates.is_deleted.getD existing.is_deleted,
    created_at := updates.created_at.getD existing.created_at,
    updated_at := now,
    sync_status := .pending,
    server_id := updates.server_id.getD existing.server_id,
    last_synced_at := updates.last_synced_at.getD existing.last_synced_at }

/-- The columns written by `updateTask`'s SQL statement:
`UPDATE tasks SET title, description, completed, updated_at, is_deleted,
sync_status WHERE id = ?` — all other columns of the row are untouched. -/
def updateTaskRow (t m : Task) : Task :=
  { t with
    title := m.title, description := m.description, completed := m.completed,
    updated_at := m.updated_at, is_deleted := m.is_deleted, sync_status := m.sync_status }

/-- `TaskService.updateTask`: look up the row, merge, write the six columns,
and append an `update` item to `sync_queue` (again a bare insert). -/
def updateTask (st : DBState) (newQueueId id : String) (updates : PartialTask)
    (now : Nat) : Option Task × DBState :=
  match st.tasks.find? (fun t => t.id = id) with
  | none => (none, st)
  | some existing =>
    let m := mergeTask existing updates now
    (some m,
     { tasks := st.tasks.map fun t => if t.id = id then updateTaskRow t m else t,
       queue := st.queue ++ [rawQueueInsert newQueueId id .update (toPartial m) now] })

/-- `TaskService.deleteTask`: soft delete (`is_deleted = 1`, bump `updated_at`,
`sync_status = 'pending'`) and append a `delete` item whose data is `{id}`. -/
def deleteTask (st : DBState) (newQueueId id : String) (now : Nat) : Bool × DBState :=
  match st.tasks.find? (fun t => t.id = id) with
  | none => (false, st)
  | some _ =>
    (true,
     { tasks := st.tasks.map fun t =>
         if t.id = id then
           { t with is_deleted := true, updated_at := now, sync_status := .pending }
         else t,
       queue := st.queue ++ [rawQueueInsert newQueueId id .delete { id := some id } now] })

/-- `TaskService.getTask`: `SELECT * FROM tasks WHERE id = ?`, returning `null`
when the row is missing or `is_deleted` is set. -/
def getTask (st : DBState) (id : String) : Option Task :=
  match st.tasks.find? (fun t => t.id = id) with
  | none => none
  | some t => if t.is_deleted then none else some t

/-- `TaskService.getAllTasks`: `SELECT * FROM tasks WHERE is_deleted = 0`. -/
def getAllTasks (st : DBState) : List Task :=
  st.tasks.filter fun t => !t.is_deleted

/-- `SyncService.addToSyncQueue`: `DELETE FROM sync_queue WHERE task_id = ?`
followed by an insert with `retry_count = 0`. -/
def addToSyncQueue (st : DBState) (newId taskId : String) (op : Op) (data : PartialTask)
    (now : Nat) : DBState :=
  { st with queue :=
      (st.queue.filter fun it => it.task_id ≠ taskId) ++
        [{ id := newId, task_id := taskId, operation := op, data := data,
           created_at := now, retry_count := 0, error_message := none }] }

/-- `SyncService.resolveConflict`: last write wins; on a tie
(`localUpdated >= serverUpdated`) the local version wins. -/
def resolveConflict (localTask serverTask : Task) : Task :=
  if serverTask.updated_at ≤ localTask.updated_at then localTask else serverTask

/-- The drain query at the top of `SyncService.sync`:
`SELECT * FROM sync_queue WHERE retry_count < 3 ORDER BY created_at ASC`. -/
def drainQueue (st : DBState) : List SyncQueueItem :=
  List.insertionSort (fun a b => a.created_at ≤ b.created_at)
    (st.queue.filter fun it => it.retry_count < 3)

/-- The net effect on one `tasks` row of `updateSyncStatus`'s `'synced'` branch:
`UPDATE tasks SET <serverData columns>, sync_status = 'synced',
last_synced_at = <now> WHERE id = ?`.  `updateData.id` is deleted before the SET
list is built, so `id` is never assigned.  When `serverData` itself carries
`sync_status` or `last_synced_at`, SQLite keeps only the rightmost assignment of
a repeated column, so the trailing explicit `sync_status = 'synced'` and
`last_synced_at = <now>` always win.  The empty-`serverData` fallback branch
performs exactly the same net update. -/
def applyServerData (t : Task) (d : PartialTask) (now : Nat) : Task :=
  { id := t.id,
    title := d.title.getD t.title,
    description := d.description.getD t.description,
    completed := d.completed.getD t.completed,
    is_deleted := d.is_deleted.getD t.is_deleted,
    created_at := d.created_at.getD t.created_at,
    updated_at := d.updated_at.getD t.updated_at,
    sync_status := .synced,
    server_id := d.server_id.getD t.server_id,
    last_synced_at := some now }

/-- `SyncService.updateSyncStatus`: on `'synced'`, commit the server data row
update and `DELETE FROM sync_queue WHERE task_id = ?`; on `'error'`, only set
the task's `sync_status`. -/
def updateSyncStatus (st : DBState) (taskId : String) (status : SyncStatus)
    (serverData : PartialTask) (now : Nat) : DBState :=
  if status = .synced then
    { tasks := st.tasks.map fun t =>
        if t.id = taskId then applyServerData t serverData now else t,
      queue := st.queue.filter fun it => it.task_id ≠ taskId }
  else
    { st with tasks := st.tasks.map fun t =>
        if t.id = taskId then { t with sync_status := status } else t }

/-- `SyncService.handleSyncError`: `newRetryCount = item.retry_count + 1`; at
the ceiling (`>= 3`) force the task's `sync_status` to `'error'`; always write
the new `retry_count` and `error_message` to the queue row with the item's id. -/
def handleSyncError (st : DBState) (item : SyncQueueItem) (errMsg : String) : DBState :=
  let newRetryCount := item.retry_count + 1
  { tasks :=
      if 3 ≤ newRetryCount then
        st.tasks.map fun t =>
          if t.id = item.task_id then { t with sync_status := .error } else t
      else st.tasks,
    queue := st.queue.map fun it =>
      if it.id = item.id then
        { it with retry_count := newRetryCount, error_message := some errMsg }
      else it }

/-- Per-item status on the batch exchange wire: `success | conflict | error`. -/
inductive ItemStatus where
  | success
  | conflict
  | error
  deriving DecidableEq, Repr

/-- One entry of `BatchSyncResponse.processed_items`. -/
structure ProcessedItem where
  client_id : String
  server_id : String
  status : ItemStatus
  resolved_data : Option Task := none
  error : Option String := none
  deriving DecidableEq, Repr

/-- Result of one call to the remote exchange (`processBatchServer`): either a
structured response, or a thrown transport-level error with a message. -/
inductive ExchangeResult where
  | ok (processed_items : List ProcessedItem)
  | transportError (msg : String)
  deriving DecidableEq, Repr

/-- A structured entry of the cycle report's `errors` array. -/
structure SyncCycleError where
  task_id : String
  operation : Op
  error : String
  timestamp : Nat
  deriving DecidableEq, Repr

/-- The `SyncResult` returned by `SyncService.sync`. -/
structure SyncResult where
  success : Bool
  synced_items : Nat
  failed_items : Nat
  conflicts : Nat
  errors : List SyncCycleError
  deriving DecidableEq, Repr

/-- The mutable counters of the `sync` loop (`synced`, `failed`, `conflicts`,
`errors`). -/
structure SyncAccum where
  synced : Nat := 0
  failed : Nat := 0
  conflicts : Nat := 0
  errors : List SyncCycleError := []
  deriving DecidableEq, Repr

/-- `res.resolved_data` viewed as the `serverData?: Partial<Task>` argument of
`updateSyncStatus` (`{...undefined}` is the empty object). -/
def partialOfResolved : Option Task → PartialTask
  | some t => toPartial t
  | none => {}

/-- The body of the `catch` block of `sync`'s batch loop, run once per batch
item: `handleSyncError(item, err)`, `failed++`, and an `errors.push` with the
error's message. -/
def batchFailStep (msg : String) (now : Nat) (acc : SyncAccum × DBState)
    (item : SyncQueueItem) : SyncAccum × DBState :=
  ({ acc.1 with
     failed := acc.1.failed + 1,
     errors := acc.1.errors ++
       [{ task_id := item.task_id, operation := item.operation, error := msg,
          timestamp := now }] },
   handleSyncError acc.2 item msg)

/-- The per-response-entry body of `sync`'s inner loop: `success` commits and
counts a synced item; `conflict` with resolved data looks up the raw local row,
resolves, commits the winner (or counts a failure when no local row exists);
every other entry (including `conflict` without data) takes the `error` path:
find the originating batch item by `task_id`, retry it, count a failure. -/
def applyOutcome (batch : List SyncQueueItem) (now : Nat) (acc : SyncAccum × DBState)
    (res : ProcessedItem) : SyncAccum × DBState :=
  if res.status = .success then
    ({ acc.1 with synced := acc.1.synced + 1 },
     updateSyncStatus acc.2 res.client_id .synced (partialOfResolved res.resolved_data) now)
  else
    match res.status, res.resolved_data with
    | .conflict, some serverTask =>
      match acc.2.tasks.find? (fun t => t.id = res.client_id) with
      | some localTask =>
        let winning := resolveConflict localTask serverTask
        ({ acc.1 with conflicts := acc.1.conflicts + 1, synced := acc.1.synced + 1 },
         updateSyncStatus acc.2 winning.id .synced (toPartial winning) now)
      | none => ({ acc.1 with failed := acc.1.failed + 1 }, acc.2)
    | _, _ =>
      match batch.find? (fun it => it.task_id = res.client_id) with
      | some item =>
        let m := jsOrS res.error "Unknown error from server"
        ({ acc.1 with
           failed := acc.1.failed + 1,
           errors := acc.1.errors ++
             [{ task_id := item.task_id, operation := item.operation, error := m,
                timestamp := now }] },
         handleSyncError acc.2 item m)
      | none => acc

/-- One iteration of `sync`'s batch loop: submit the batch; on a structured
response apply every returned outcome in order; on a thrown transport error fail
every item of the batch individually. -/
def processBatch (exchange : List SyncQueueItem → ExchangeResult) (now : Nat)
    (acc : SyncAccum × DBState) (batch : List SyncQueueItem) : SyncAccum × DBState :=
  match exchange batch with
  | .ok processed => processed.foldl (applyOutcome batch now) acc
  | .transportError msg => batch.foldl (batchFailStep msg now) acc

/-- Fuel-indexed slicing of the drained item list into `BATCH_SIZE` chunks
(`items.slice(i, i + BATCH_SIZE)` for `i = 0, n, 2n, ...`). -/
def chunksAux (n : Nat) : Nat → List α → List (List α)
  | 0, _ => []
  | _ + 1, [] => []
  | fuel + 1, x :: xs => (x :: xs).take n :: chunksAux n fuel ((x :: xs).drop n)

/-- The batches of `sync`'s loop. -/
def chunks (n : Nat) (l : List α) : List (List α) :=
  chunksAux n l.length l

/-- `SyncService.sync`: drain the eligible queue items; if none, report an
immediately successful empty cycle; otherwise process the items batch by batch
and aggregate the report. -/
def sync (st : DBState) (exchange : List SyncQueueItem → ExchangeResult)
    (batchSize now : Nat) : SyncResult × DBState :=
  let items := drainQueue st
  if items.length = 0 then
    ({ success := true, synced_items := 0, failed_items := 0, conflicts := 0,
       errors := [] }, st)
  else
    let r := (chunks batchSize items).foldl (processBatch exchange now) ({}, st)
    ({ success := r.1.failed == 0, synced_items := r.1.synced,
       failed_items := r.1.failed, conflicts := r.1.conflicts,
       errors := r.1.errors }, r.2)

/-- The per-item body of the `POST /api/sync/batch` handler in
`src/routes/sync.ts`: the server side of the exchange.  Fresh identifiers for
the `createTask`/`updateTask`/`deleteTask` calls are passed explicitly. -/
def serverProcessItem (freshTaskId freshQueueId : String) (now : Nat)
    (st : DBState) (item : SyncQueueItem) : ProcessedItem × DBState :=
  match item.operation with
  | .create =>
    let r := createTask st freshTaskId freshQueueId
      { title := some (jsOrS item.data.title "Untitled"),
        description := item.data.description } now
    ({ client_id := item.task_id, server_id := r.1.id, status := .success,
       resolved_data := some r.1, error := none }, r.2)
  | .update =>
    match getTask st item.task_id with
    | none =>
      ({ client_id := item.task_id, server_id := item.task_id, status := .error,
         resolved_data := none,
         error := some ("Task with id " ++ item.task_id ++ " not found on server.") },
       st)
    | some serverTask =>
      match item.data.updated_at with
      | some clientUpdateTime =>
        if serverTask.updated_at < clientUpdateTime then
          let r := updateTask st freshQueueId item.task_id item.data now
          ({ client_id := item.task_id, server_id := item.task_id, status := .success,
             resolved_data := r.1, error := none }, r.2)
        else
          ({ client_id := item.task_id, server_id := item.task_id, status := .success,
             resolved_data := some serverTask, error := none }, st)
      | none =>
        ({ client_id := item.task_id, server_id := item.task_id, status := .success,
           resolved_data := some serverTask, error := none }, st)
  | .delete =>
    let r := deleteTask st freshQueueId item.task_id now
    ({ client_id := item.task_id, server_id := item.task_id, status := .success,
       resolved_data := none, error := none }, r.2)

/-!
## Failure-injected variant of the sync cycle

The DB driver calls are asynchronous and can throw.  To examine what `sync`
does when a local read/update throws while applying one item's outcome, the
model below injects a failure into `updateSyncStatus` for a chosen set of task
ids (the `failing` predicate): this models `UPDATE tasks ... WHERE id = ?`
throwing before any effect.  The queue bookkeeping writes of
`handleSyncError` stay total, as in the non-injected model. -/

/-- `updateSyncStatus` with an injected local-write failure for task ids
selected by `failing` (the `'synced'` commit path used when applying
outcomes). -/
def updateSyncStatusE (failing : String → Bool) (st : DBState) (taskId : String)
    (serverData : PartialTask) (now : Nat) : Except String DBState :=
  if failing taskId then .error ("SQLITE_ERROR: cannot write task " ++ taskId)
  else .ok (updateSyncStatus st taskId .synced serverData now)

/-- The per-response-entry loop body with fallible local commits: identical to
`applyOutcome` except that the two `updateSyncStatus` commit sites may throw. -/
def applyOutcomeE (failing : String → Bool) (batch : List SyncQueueItem) (now : Nat)
    (acc : SyncAccum × DBState) (res : ProcessedItem) :
    Except String (SyncAccum × DBState) :=
  if res.status = .success then
    match updateSyncStatusE failing acc.2 res.client_id
        (partialOfResolved res.resolved_data) now with
    | .ok st => .ok ({ acc.1 with synced := acc.1.synced + 1 }, st)
    | .error msg => .error msg
  else
    match res.status, res.resolved_data with
    | .conflict, some serverTask =>
      match acc.2.tasks.find? (fun t => t.id = res.client_id) with
      | some localTask =>
        let winning := resolveConflict localTask serverTask
        match updateSyncStatusE failing acc.2 winning.id (toPartial winning) now with
        | .ok st =>
          .ok ({ acc.1 with conflicts := acc.1.conflicts + 1, synced := acc.1.synced + 1 },
               st)
        | .error msg => .error msg
      | none => .ok ({ acc.1 with failed := acc.1.failed + 1 }, acc.2)
    | _, _ =>
      match batch.find? (fun it => it.task_id = res.client_id) with
      | some item =>
        let m := jsOrS res.error "Unknown error from server"
        .ok ({ acc.1 with
               failed := acc.1.failed + 1,
               errors := acc.1.errors ++
                 [{ task_id := item.task_id, operation := item.operation, error := m,
                    timestamp := now }] },
             handleSyncError acc.2 item m)
      | none => .ok acc

/-- Run the response-entry loop until it finishes or an entry throws; on a
throw, return the counters and DB state accumulated so far together with the
thrown message (the `for` loop inside `try` aborts at the first exception). -/
def applyOutcomesE (failing : String → Bool) (batch : List SyncQueueItem) (now : Nat) :
    List ProcessedItem → SyncAccum × DBState → (SyncAccum × DBState) × Option String
  | [], acc => (acc, none)
  | res :: rest, acc =>
    match applyOutcomeE failing batch now acc res with
    | .ok acc2 => applyOutcomesE failing batch now rest acc2
    | .error msg => (acc, some msg)

/-- One batch iteration with fallible local commits: the `catch` block treats a
throw from the exchange and a throw from outcome application identically — every
item of the batch is failed individually from the state reached at the throw. -/
def processBatchE (failing : String → Bool)
    (exchange : List SyncQueueItem → ExchangeResult) (now : Nat)
    (acc : SyncAccum × DBState) (batch : List SyncQueueItem) : SyncAccum × DBState :=
  match exchange batch with
  | .ok processed =>
    match applyOutcomesE failing batch now processed acc with
    | (acc2, none) => acc2
    | (acc2, some msg) => batch.foldl (batchFailStep msg now) acc2
  | .transportError msg => batch.foldl (batchFailStep msg now) acc

/-- `SyncService.sync` with fallible local commits. -/
def syncE (failing : String → Bool) (st : DBState)
    (exchange : List SyncQueueItem → ExchangeResult) (batchSize now : Nat) :
    SyncResult × DBState :=
  let items := drainQueue st
  if items.length = 0 then
    ({ success := true, synced_items := 0, failed_items := 0, conflicts := 0,
       errors := [] }, st)
  else
    let r := (chunks batchSize items).foldl (processBatchE failing exchange now) ({}, st)
    ({ success := r.1.failed == 0, synced_items := r.1.synced,
       failed_items := r.1.failed, conflicts := r.1.conflicts,
       errors := r.1.errors }, r.2)

/-- The queue row written by `handleSyncError` for the failed item itself:
`retry_count` incremented by one, `error_message` set. -/
def bumpItem (it : SyncQueueItem) (msg : String) : SyncQueueItem :=
  { it with retry_count := it.retry_count + 1, error_message := some msg }

/-- The wire contract of §6 for one batch: when the exchange answers with a
structured response, it enumerates one `processed_items` entry per submitted
item, each matched to a request item by `client_id == task_id`.  A transport
throw is unconstrained. -/
def responseMatches (batch : List SyncQueueItem) : ExchangeResult → Prop
  | .ok processed =>
    processed.length = batch.length ∧
    ∀ res ∈ processed, res.client_id ∈ batch.map fun it => it.task_id
  | .transportError _ => True

instance : IsTotal SyncQueueItem fun a b => a.created_at ≤ b.created_at :=
  ⟨fun a b => Nat.le_total a.created_at b.created_at⟩

instance : IsTrans SyncQueueItem fun a b => a.created_at ≤ b.created_at :=
  ⟨fun _ _ _ h1 h2 => Nat.le_trans h1 h2⟩

/-! ## Concrete fixtures for witnesses and counterexamples -/

def emptyDB : DBState := { tasks := [], queue := [] }

def taskA : Task :=
  { id := "a", title := "A", description := "", completed := false, is_deleted := false,
    created_at := 0, updated_at := 5, sync_status := .pending, server_id := none,
    last_synced_at := none }

def taskB : Task := { taskA with id := "b", title := "B", updated_at := 7 }

def taskDel : Task := { taskA with id := "d", is_deleted := true }

def itemA : SyncQueueItem :=
  { id := "qa", task_id := "a", operation := .update, data := toPartial taskA,
    created_at := 0, retry_count := 0, error_message := none }

def itemB : SyncQueueItem := { itemA with id := "qb", task_id := "b", created_at := 1 }

/-- A queue item one failure below the retry ceiling. -/
def itemA2 : SyncQueueItem := { itemA with retry_count := 2 }

def stDel : DBState := { tasks := [taskDel], queue := [] }

def stA : DBState := { tasks := [taskA], queue := [] }

def stAB : DBState := { tasks := [taskA, taskB], queue := [itemA, itemB] }

def stQ2 : DBState := { tasks := [taskA], queue := [itemA2] }

/-- An exchange that reports plain success for every submitted item. -/
def okExchange : List SyncQueueItem → ExchangeResult := fun b =>
  .ok (b.map fun it =>
    { client_id := it.task_id, server_id := it.task_id, status := .success })

/-- An update item whose snapshot carries `updated_at = 9`, newer than
`taskA.updated_at = 5`. -/
def itemUp : SyncQueueItem :=
  { id := "qu", task_id := "a", operation := .update,
    data := toPartial { taskA with updated_at := 9 },
    created_at := 0, retry_count := 0, error_message := none }

/-- Local-write failure injection for the task with id `"a"`. -/
def failA : String → Bool := fun tid => tid == "a"

/-- An exchange whose transport always throws. -/
def downExchange : List SyncQueueItem → ExchangeResult := fun _ =>
  .transportError "network down"

/-! ## Theorems -/

/-- C1: the claim asserts that every enqueue — `SyncService.addToSyncQueue` and
the direct `sync_queue` inserts of `TaskService.createTask` / `updateTask` /
`deleteTask` — first discards any existing queue item for the task, so at most
one item per task ever exists.  On the code this fails: only `addToSyncQueue`
deletes first, while `TaskService` performs bare inserts.  The first conjunct
evaluates the failing input — `createTask` followed by one `updateTask` on the
same task leaves two queue items for it; the second conjunct proves the true
half, that `addToSyncQueue` alone does maintain exactly one item per task. -/
theorem claim_C1_queueUniqueness_evidence :
    (((updateTask (createTask emptyDB "a" "q1" { title := some "A" } 0).2 "q2" "a"
        { title := some "B" } 1).2.queue.filter fun it => it.task_id = "a").length = 2) ∧
    (∀ st newId taskId op d now,
      ((addToSyncQueue st newId taskId op d now).queue.filter fun it =>
        it.task_id = taskId).length = 1) := by
  constructor
  · decide
  · intro st newId taskId op d now
    simp [addToSyncQueue, List.filter_append, List.filter_filter]

/-- C2: `resolveConflict` is a pure function of its two arguments; it returns
the local task whenever `local.updated_at >= remote.updated_at` (so ties favor
local) and the remote task otherwise. -/
theorem claim_C2_resolveConflict (localTask serverTask : Task) :
    (serverTask.updated_at ≤ localTask.updated_at →
      resolveConflict localTask serverTask = localTask) ∧
    (localTask.updated_at < serverTask.updated_at →
      resolveConflict localTask serverTask = serverTask) := by
  constructor
  · intro h
    simp [resolveConflict, h]
  · intro h
    simp only [resolveConflict]
    exact if_neg (Nat.not_le.mpr h)

theorem claim_C2_witness :
    resolveConflict taskB taskA = taskB ∧ resolveConflict taskA taskB = taskB :=
  ⟨(claim_C2_resolveConflict taskB taskA).1 (by decide),
   (claim_C2_resolveConflict taskA taskB).2 (by decide)⟩

/-- C9 counterexample: a task row that exists with `is_deleted = true` is *not*
returned by `getTask`; the code returns not-found (`null`), contradicting the
claim that soft-deleted tasks "remain addressable by id". -/
theorem claim_C9_counterexample :
    (stDel.tasks.find? fun t => t.id = "d").isSome = true ∧
    taskDel.is_deleted = true ∧
    getTask stDel "d" = none := by
  decide

/-- C9 amended: soft-deleted tasks are excluded from *all* reads of
`TaskService` — `getAllTasks` returns exactly the rows with `is_deleted = false`,
and `getTask id` returns a task iff it is the row found by id *and* it is not
soft-deleted (soft-deleted rows yield not-found). -/
theorem claim_C9_softDelete_amended (st : DBState) (id : String) (t : Task) :
    (t ∈ getAllTasks st ↔ t ∈ st.tasks ∧ t.is_deleted = false) ∧
    (getTask st id = some t ↔
      st.tasks.find? (fun x => x.id = id) = some t ∧ t.is_deleted = false) := by
  constructor
  · simp [getAllTasks, List.mem_filter]
  · cases hf : st.tasks.find? (fun x => x.id = id) with
    | none => simp [getTask, hf]
    | some u =>
      simp only [getTask, hf]
      by_cases hd : u.is_deleted
      · simp only [hd, if_true, reduceCtorEq, Option.some.injEq, false_iff, not_and]
        rintro rfl
        simp [hd]
      · rw [if_neg hd]
        simp only [Option.some.injEq]
        constructor
        · rintro rfl
          exact ⟨rfl, by simpa using hd⟩
        · rintro ⟨rfl, -⟩
          rfl

theorem claim_C9_softDelete_amended_witness :
    getTask stDel "d" = some taskDel ↔
      stDel.tasks.find? (fun x => x.id = "d") = some taskDel ∧
        taskDel.is_deleted = false :=
  (claim_C9_softDelete_amended stDel "d" taskDel).2

/-- C7: the server side of a batch `update`: absent (per `getTask`) ⇒ outcome
`error` with a "not found" message and an unchanged store; present with the
client's `updated_at` strictly newer ⇒ the client's fields are applied through
`updateTask` and the updated record is returned with outcome `success`;
otherwise (including a missing client `updated_at`) the stored server record is
returned with outcome `success`; the outcome is never `conflict`. -/
theorem claim_C7_serverUpdate (f1 f2 : String) (now : Nat) (st : DBState)
    (item : SyncQueueItem) (hop : item.operation = .update) :
    (getTask st item.task_id = none →
      (serverProcessItem f1 f2 now st item).1.status = .error ∧
      (serverProcessItem f1 f2 now st item).1.error =
        some ("Task with id " ++ item.task_id ++ " not found on server.") ∧
      (serverProcessItem f1 f2 now st item).2 = st) ∧
    (∀ serverTask, getTask st item.task_id = some serverTask →
      (∀ cu, item.data.updated_at = some cu → serverTask.updated_at < cu →
        (serverProcessItem f1 f2 now st item).1.status = .success ∧
        (serverProcessItem f1 f2 now st item).1.resolved_data =
          (updateTask st f2 item.task_id item.data now).1 ∧
        (serverProcessItem f1 f2 now st item).2 =
          (updateTask st f2 item.task_id item.data now).2) ∧
      (∀ cu, item.data.updated_at = some cu → ¬ serverTask.updated_at < cu →
        (serverProcessItem f1 f2 now st item).1.status = .success ∧
        (serverProcessItem f1 f2 now st item).1.resolved_data = some serverTask ∧
        (serverProcessItem f1 f2 now st item).2 = st) ∧
      (item.data.updated_at = none →
        (serverProcessItem f1 f2 now st item).1.status = .success ∧
        (serverProcessItem f1 f2 now st item).1.resolved_data = some serverTask ∧
        (serverProcessItem f1 f2 now st item).2 = st)) ∧
    (serverProcessItem f1 f2 now st item).1.status ≠ .conflict := by
  refine ⟨?_, ?_, ?_⟩
  · intro hg
    simp [serverProcessItem, hop, hg]
  · intro serverTask hg
    refine ⟨?_, ?_, ?_⟩
    · intro cu hcu hlt
      simp [serverProcessItem, hop, hg, hcu, hlt]
    · intro cu hcu hlt
      simp [serverProcessItem, hop, hg, hcu, hlt]
    · intro hcu
      simp [serverProcessItem, hop, hg, hcu]
  · rcases hg : getTask st item.task_id with _ | serverTask
    · simp [serverProcessItem, hop, hg]
    · rcases hcu : item.data.updated_at with _ | cu
      · simp [serverProcessItem, hop, hg, hcu]
      · by_cases hlt : serverTask.updated_at < cu
        · simp [serverProcessItem, hop, hg, hcu, hlt]
        · simp [serverProcessItem, hop, hg, hcu, hlt]

theorem claim_C7_witness :
    (serverProcessItem "f1" "q2" 11 stA itemUp).1.status = .success ∧
    (serverProcessItem "f1" "q2" 11 stA itemUp).1.resolved_data =
      (updateTask stA "q2" itemUp.task_id itemUp.data 11).1 ∧
    (serverProcessItem "f1" "q2" 11 stA itemUp).2 =
      (updateTask stA "q2" itemUp.task_id itemUp.data 11).2 :=
  ((claim_C7_serverUpdate "f1" "q2" 11 stA itemUp rfl).2.1 taskA (by decide)).1
    9 (by decide) (by decide)

/-- Every row after `updateTask` is either an untouched old row or an old row
with only the six written columns changed: `id`, `created_at`, `server_id` and
`last_synced_at` survive, `updated_at` becomes the call time and `sync_status`
becomes `pending`. -/
theorem updateTask_mem_tasks (st : DBState) (qid id : String) (updates : PartialTask)
    (now : Nat) :
    ∀ t ∈ (updateTask st qid id updates now).2.tasks,
      t ∈ st.tasks ∨
        (t.updated_at = now ∧ t.sync_status = .pending ∧
         ∃ t0 ∈ st.tasks, t.id = t0.id ∧ t.created_at = t0.created_at ∧
           t.server_id = t0.server_id ∧ t.last_synced_at = t0.last_synced_at) := by
  intro t ht
  rcases hf : st.tasks.find? (fun x => x.id = id) with _ | existing
  · simp only [updateTask, hf] at ht
    exact .inl ht
  · simp only [updateTask, hf] at ht
    rcases List.mem_map.1 ht with ⟨t0, ht0, rfl⟩
    by_cases hid : t0.id = id
    · right
      refine ⟨by simp [hid, updateTaskRow, mergeTask],
              by simp [hid, updateTaskRow, mergeTask], t0, ht0, ?_, ?_, ?_, ?_⟩ <;>
        simp [hid, updateTaskRow]
    · left
      simpa [hid] using ht0

/-- C10: `updateTask` touches only the columns named in its SQL `SET` list —
other rows are untouched, and the updated row keeps `id`, `created_at`,
`server_id`, `last_synced_at` while getting `updated_at = now` (any caller
supplied `updated_at` is discarded) and `sync_status = pending`; consequently a
server-side batch `update` (which goes through `updateTask`) never stores the
client's `updated_at`: every row after it carries either its old `updated_at`
or the server's call time. -/
theorem claim_C10_updateTask_frame (st : DBState) (qid id : String)
    (updates : PartialTask) (now : Nat) :
    (∀ t ∈ st.tasks, t.id ≠ id → t ∈ (updateTask st qid id updates now).2.tasks) ∧
    (∀ t ∈ (updateTask st qid id updates now).2.tasks,
      t ∈ st.tasks ∨
        (t.updated_at = now ∧ t.sync_status = .pending ∧
         ∃ t0 ∈ st.tasks, t.id = t0.id ∧ t.created_at = t0.created_at ∧
           t.server_id = t0.server_id ∧ t.last_synced_at = t0.last_synced_at)) ∧
    (∀ st2 f1 f2 item, item.operation = Op.update →
      ∀ t ∈ (serverProcessItem f1 f2 now st2 item).2.tasks,
        t ∈ st2.tasks ∨ (t.updated_at = now ∧ t.sync_status = .pending)) := by
  refine ⟨?_, updateTask_mem_tasks st qid id updates now, ?_⟩
  · intro t ht hne
    rcases hf : st.tasks.find? (fun x => x.id = id) with _ | existing
    · simpa [updateTask, hf] using ht
    · simp only [updateTask, hf]
      have := List.mem_map_of_mem
        (f := fun t => if t.id = id then updateTaskRow t (mergeTask existing updates now) else t)
        ht
      simpa [hne] using this
  · intro st2 f1 f2 item hop t ht
    rcases hg : getTask st2 item.task_id with _ | serverTask
    · simp only [serverProcessItem, hop, hg] at ht
      exact .inl ht
    · rcases hcu : item.data.updated_at with _ | cu
      · simp only [serverProcessItem, hop, hg, hcu] at ht
        exact .inl ht
      · by_cases hlt : serverTask.updated_at < cu
        · simp only [serverProcessItem, hop, hg, hcu, hlt, if_true] at ht
          rcases updateTask_mem_tasks st2 f2 item.task_id item.data now t ht with h | h
          · exact .inl h
          · exact .inr ⟨h.1, h.2.1⟩
        · simp only [serverProcessItem, hop, hg, hcu, hlt, if_false] at ht
          exact .inl ht

theorem claim_C10_witness :
    ∀ t ∈ (serverProcessItem "f1" "q2" 11 stA itemUp).2.tasks,
      t ∈ stA.tasks ∨ (t.updated_at = 11 ∧ t.sync_status = .pending) :=
  (claim_C10_updateTask_frame emptyDB "q" "x" {} 11).2.2 stA "f1" "q2" itemUp rfl

/-- The drain query returns exactly the queue rows with `retry_count < 3`. -/
theorem mem_drainQueue (s : DBState) (q : SyncQueueItem) :
    q ∈ drainQueue s ↔ q ∈ s.queue ∧ q.retry_count < 3 := by
  unfold drainQueue
  rw [List.mem_insertionSort]
  simp [List.mem_filter]

/-- C4: a failed attempt rewrites the item's queue row with `retry_count`
incremented by exactly one and `error_message` set, leaving every other queue
row untouched; when the new count reaches the ceiling of 3 every task row with
the item's `task_id` is forced to `sync_status = error` (below the ceiling the
`tasks` table is untouched); the drain query returns exactly the rows with
`retry_count < 3`, sorted by `created_at` ascending, so the bumped row — still
present in the queue — is excluded from every subsequent drain once the ceiling
is reached. -/
theorem claim_C4_handleRetry (st : DBState) (item : SyncQueueItem) (msg : String)
    (hmem : item ∈ st.queue) :
    bumpItem item msg ∈ (handleSyncError st item msg).queue ∧
    (∀ q ∈ st.queue, q.id ≠ item.id → q ∈ (handleSyncError st item msg).queue) ∧
    (3 ≤ item.retry_count + 1 →
      ∀ t ∈ (handleSyncError st item msg).tasks, t.id = item.task_id →
        t.sync_status = .error) ∧
    (item.retry_count + 1 < 3 → (handleSyncError st item msg).tasks = st.tasks) ∧
    (∀ s : DBState, ∀ q, q ∈ drainQueue s ↔ q ∈ s.queue ∧ q.retry_count < 3) ∧
    List.Sorted (fun x y : SyncQueueItem => x.created_at ≤ y.created_at)
      (drainQueue st) ∧
    (3 ≤ item.retry_count + 1 →
      bumpItem item msg ∉ drainQueue (handleSyncError st item msg)) := by
  refine ⟨?_, ?_, ?_, ?_, mem_drainQueue, ?_, ?_⟩
  · have h := List.mem_map_of_mem
      (f := fun it => if it.id = item.id then
        { it with retry_count := item.retry_count + 1, error_message := some msg }
        else it) hmem
    simpa [handleSyncError, bumpItem] using h
  · intro q hq hne
    have h := List.mem_map_of_mem
      (f := fun it => if it.id = item.id then
        { it with retry_count := item.retry_count + 1, error_message := some msg }
        else it) hq
    simpa [handleSyncError, hne] using h
  · intro h3 t ht htid
    simp only [handleSyncError, if_pos h3] at ht
    rcases List.mem_map.1 ht with ⟨t0, ht0, rfl⟩
    by_cases hid : t0.id = item.task_id
    · simp [hid]
    · rw [if_neg hid] at htid ⊢
      exact absurd htid hid
  · intro hlt
    simp only [handleSyncError]
    rw [if_neg (Nat.not_le.mpr hlt)]
  · unfold drainQueue
    exact List.sorted_insertionSort _ _
  · intro h3 hcontra
    have h := ((mem_drainQueue _ _).1 hcontra).2
    simp only [bumpItem] at h
    omega

/-- C6: applying a `success` outcome commits the returned resolved data to the
matching task row through `applyServerData` — which never touches `id`, always
sets `sync_status = synced` and `last_synced_at = now` — removes the task's
queue rows, leaves every other task row untouched (every resulting row is
either an old row or the committed update of a row with the outcome's
`client_id`), and counts exactly one synced item. -/
theorem claim_C6_successOutcome (batch : List SyncQueueItem) (now : Nat)
    (a : SyncAccum) (st : DBState) (res : ProcessedItem)
    (hs : res.status = .success) :
    (∀ t ∈ st.tasks, t.id = res.client_id →
      applyServerData t (partialOfResolved res.resolved_data) now ∈
        (applyOutcome batch now (a, st) res).2.tasks) ∧
    (∀ t ∈ st.tasks, t.id ≠ res.client_id →
      t ∈ (applyOutcome batch now (a, st) res).2.tasks) ∧
    (∀ t ∈ (applyOutcome batch now (a, st) res).2.tasks,
      t ∈ st.tasks ∨ ∃ t0 ∈ st.tasks, t0.id = res.client_id ∧
        t = applyServerData t0 (partialOfResolved res.resolved_data) now) ∧
    ((applyOutcome batch now (a, st) res).2.queue =
      st.queue.filter fun it => it.task_id ≠ res.client_id) ∧
    (∀ t d, (applyServerData t d now).id = t.id ∧
      (applyServerData t d now).sync_status = .synced ∧
      (applyServerData t d now).last_synced_at = some now) ∧
    ((applyOutcome batch now (a, st) res).1.synced = a.synced + 1) := by
  have hred : applyOutcome batch now (a, st) res =
      ({ a with synced := a.synced + 1 },
       updateSyncStatus st res.client_id .synced
         (partialOfResolved res.resolved_data) now) := by
    simp [applyOutcome, hs]
  rw [hred]
  simp only [updateSyncStatus, if_pos rfl]
  refine ⟨?_, ?_, ?_, by trivial, ?_, by trivial⟩
  · intro t ht htid
    have h := List.mem_map_of_mem
      (f := fun t => if t.id = res.client_id then
        applyServerData t (partialOfResolved res.resolved_data) now else t) ht
    simpa [htid] using h
  · intro t ht hne
    have h := List.mem_map_of_mem
      (f := fun t => if t.id = res.client_id then
        applyServerData t (partialOfResolved res.resolved_data) now else t) ht
    simpa [hne] using h
  · intro t ht
    rcases List.mem_map.1 ht with ⟨t0, ht0, rfl⟩
    by_cases hid : t0.id = res.client_id
    · exact .inr ⟨t0, ht0, hid, by rw [if_pos hid]⟩
    · rw [if_neg hid]
      exact .inl ht0
  · intro t d
    refine ⟨rfl, rfl, rfl⟩

theorem claim_C4_witness :
    bumpItem itemA2 "boom" ∉ drainQueue (handleSyncError stQ2 itemA2 "boom") :=
  (claim_C4_handleRetry stQ2 itemA2 "boom" (by decide)).2.2.2.2.2.2 (by decide)

theorem claim_C6_witness :
    (applyOutcome [itemA] 13 ({}, stA)
      { client_id := "a", server_id := "a", status := .success }).2.queue =
      stA.queue.filter fun it => it.task_id ≠ "a" :=
  (claim_C6_successOutcome [itemA] 13 {} stA
    { client_id := "a", server_id := "a", status := .success } rfl).2.2.2.1

/-! ### Counting lemmas for the batch loop -/

/-- The catch-block fold fails each item exactly once: `failed` and the error
list grow by the batch length while `synced` and `conflicts` are unchanged. -/
theorem batchFail_foldl_counts (msg : String) (now : Nat) (batch : List SyncQueueItem) :
    ∀ acc : SyncAccum × DBState,
      ((batch.foldl (batchFailStep msg now) acc).1.synced = acc.1.synced) ∧
      ((batch.foldl (batchFailStep msg now) acc).1.conflicts = acc.1.conflicts) ∧
      ((batch.foldl (batchFailStep msg now) acc).1.failed = acc.1.failed + batch.length) ∧
      ((batch.foldl (batchFailStep msg now) acc).1.errors.length =
        acc.1.errors.length + batch.length) := by
  induction batch with
  | nil => intro acc; simp
  | cons it rest ih =>
    intro acc
    rw [List.foldl_cons]
    obtain ⟨h1, h2, h3, h4⟩ := ih (batchFailStep msg now acc it)
    refine ⟨?_, ?_, ?_, ?_⟩
    · rw [h1]; simp [batchFailStep]
    · rw [h2]; simp [batchFailStep]
    · rw [h3]; simp only [batchFailStep, List.length_cons]; omega
    · rw [h4]; simp only [batchFailStep, List.length_append, List.length_cons,
        List.length_nil]; omega

/-- `handleSyncError` leaves queue rows with a different id untouched. -/
theorem handleSyncError_queue_preserve (st : DBState) (item q : SyncQueueItem)
    (msg : String) (hq : q ∈ st.queue) (hne : q.id ≠ item.id) :
    q ∈ (handleSyncError st item msg).queue := by
  have h := List.mem_map_of_mem
    (f := fun it => if it.id = item.id then
      { it with retry_count := item.retry_count + 1, error_message := some msg }
      else it) hq
  simpa [handleSyncError, hne] using h

/-- The catch-block fold leaves queue rows whose ids occur nowhere in the batch
untouched. -/
theorem batchFail_foldl_queue_preserve (msg : String) (now : Nat)
    (batch : List SyncQueueItem) :
    ∀ (acc : SyncAccum × DBState) (q : SyncQueueItem), q ∈ acc.2.queue →
      (∀ it ∈ batch, it.id ≠ q.id) →
      q ∈ ((batch.foldl (batchFailStep msg now) acc).2).queue := by
  induction batch with
  | nil => intro acc q hq _; simpa using hq
  | cons hd rest ih =>
    intro acc q hq hne
    rw [List.foldl_cons]
    refine ih _ q ?_ fun x hx => hne x (List.mem_cons_of_mem _ hx)
    have h : q ∈ (handleSyncError acc.2 hd msg).queue :=
      handleSyncError_queue_preserve _ _ _ _ hq
        (Ne.symm (hne hd (List.mem_cons_self _ _)))
    simpa [batchFailStep] using h

/-- The catch-block fold bumps every batch item: each one's queue row ends with
`retry_count` incremented by one and `error_message = msg`. -/
theorem batchFail_foldl_bumps (msg : String) (now : Nat) (batch : List SyncQueueItem) :
    ∀ acc : SyncAccum × DBState,
      (∀ it ∈ batch, it ∈ acc.2.queue) →
      batch.Pairwise (fun x y => x.id ≠ y.id) →
      ∀ it ∈ batch, bumpItem it msg ∈ ((batch.foldl (batchFailStep msg now) acc).2).queue := by
  induction batch with
  | nil => intro acc _ _ it hit; cases hit
  | cons hd rest ih =>
    intro acc hsub hpw it hit
    rw [List.foldl_cons]
    rcases List.mem_cons.1 hit with rfl | hit2
    · refine batchFail_foldl_queue_preserve msg now rest _ _ ?_ ?_
      · have hb : bumpItem it msg ∈ (handleSyncError acc.2 it msg).queue := by
          have h := List.mem_map_of_mem
            (f := fun x => if x.id = it.id then
              { x with retry_count := it.retry_count + 1, error_message := some msg }
              else x) (hsub it (List.mem_cons_self _ _))
          simpa [handleSyncError, bumpItem] using h
        simpa [batchFailStep] using hb
      · intro x hx
        have h := (List.pairwise_cons.1 hpw).1 x hx
        simpa [bumpItem] using h.symm
    · refine ih (batchFailStep msg now acc hd) ?_ (List.pairwise_cons.1 hpw).2 it hit2
      intro x hx
      have hq : x ∈ acc.2.queue := hsub x (List.mem_cons_of_mem _ hx)
      have hne : x.id ≠ hd.id := Ne.symm ((List.pairwise_cons.1 hpw).1 x hx)
      have h := handleSyncError_queue_preserve acc.2 hd x msg hq hne
      simpa [batchFailStep] using h

/-- Every applied response entry is counted exactly once: `synced + failed`
grows by one, whatever the entry's status, as long as the entry's `client_id`
names some batch item (needed for the `error` path's lookup). -/
theorem applyOutcome_counts (batch : List SyncQueueItem) (now : Nat)
    (acc : SyncAccum × DBState) (res : ProcessedItem)
    (h : res.client_id ∈ batch.map fun it => it.task_id) :
    (applyOutcome batch now acc res).1.synced + (applyOutcome batch now acc res).1.failed
      = acc.1.synced + acc.1.failed + 1 := by
  have hfind : (batch.find? fun it => it.task_id = res.client_id).isSome := by
    rcases List.mem_map.1 h with ⟨it, hit, hteq⟩
    exact List.find?_isSome.2 ⟨it, hit, by simp [hteq]⟩
  by_cases hs : res.status = .success
  · simp only [applyOutcome, if_pos hs]
    omega
  · rcases hst : res.status with _ | _ | _
    · exact absurd hst hs
    · rcases hrd : res.resolved_data with _ | serverTask
      · rcases hf : batch.find? (fun it => it.task_id = res.client_id) with _ | item
        · rw [hf] at hfind; cases hfind
        · simp [applyOutcome, hst, hrd, hf]
          omega
      · rcases hloc : acc.2.tasks.find? (fun t => t.id = res.client_id) with _ | localTask
        · simp [applyOutcome, hst, hrd, hloc]
          omega
        · simp [applyOutcome, hst, hrd, hloc]
          omega
    · rcases hf : batch.find? (fun it => it.task_id = res.client_id) with _ | item
      · rw [hf] at hfind; cases hfind
      · rcases hrd : res.resolved_data with _ | serverTask
        · simp [applyOutcome, hst, hrd, hf]
          omega
        · simp [applyOutcome, hst, hrd, hf]
          omega

/-- Folding the whole response counts each entry once. -/
theorem applyOutcome_foldl_counts (batch : List SyncQueueItem) (now : Nat)
    (processed : List ProcessedItem) :
    ∀ acc : SyncAccum × DBState,
      (∀ res ∈ processed, res.client_id ∈ batch.map fun it => it.task_id) →
      (processed.foldl (applyOutcome batch now) acc).1.synced +
        (processed.foldl (applyOutcome batch now) acc).1.failed
        = acc.1.synced + acc.1.failed + processed.length := by
  induction processed with
  | nil => intro acc _; simp
  | cons res rest ih =>
    intro acc hmem
    rw [List.foldl_cons]
    have hstep := applyOutcome_counts batch now acc res (hmem res (List.mem_cons_self _ _))
    have hrest := ih (applyOutcome batch now acc res)
      fun r hr => hmem r (List.mem_cons_of_mem _ hr)
    simp only [List.length_cons]
    omega

/-- One batch iteration counts each drained item of the batch exactly once,
under the §6 wire contract for that batch. -/
theorem processBatch_counts (exchange : List SyncQueueItem → ExchangeResult)
    (now : Nat) (batch : List SyncQueueItem) (acc : SyncAccum × DBState)
    (h : responseMatches batch (exchange batch)) :
    (processBatch exchange now acc batch).1.synced +
      (processBatch exchange now acc batch).1.failed
      = acc.1.synced + acc.1.failed + batch.length := by
  rcases hex : exchange batch with processed | msg
  · rw [hex] at h
    obtain ⟨hlen, hmem⟩ := h
    have hfold := applyOutcome_foldl_counts batch now processed acc hmem
    simp only [processBatch, hex]
    omega
  · simp only [processBatch, hex]
    have h4 := batchFail_foldl_counts msg now batch acc
    omega

/-- Folding over all batches counts every drained item exactly once. -/
theorem processBatch_foldl_counts (exchange : List SyncQueueItem → ExchangeResult)
    (now : Nat) (bs : List (List SyncQueueItem)) :
    ∀ acc : SyncAccum × DBState,
      (∀ b ∈ bs, responseMatches b (exchange b)) →
      (bs.foldl (processBatch exchange now) acc).1.synced +
        (bs.foldl (processBatch exchange now) acc).1.failed
        = acc.1.synced + acc.1.failed + (bs.map List.length).sum := by
  induction bs with
  | nil => intro acc _; simp
  | cons b rest ih =>
    intro acc h
    rw [List.foldl_cons]
    have h1 := processBatch_counts exchange now b acc (h b (List.mem_cons_self _ _))
    have h2 := ih (processBatch exchange now acc b)
      fun x hx => h x (List.mem_cons_of_mem _ hx)
    simp only [List.map_cons, List.sum_cons]
    omega

/-- Slicing into batches loses no item and duplicates none. -/
theorem chunksAux_flatten (n : Nat) (hn : 0 < n) :
    ∀ (fuel : Nat) (l : List α), l.length ≤ fuel → (chunksAux n fuel l).flatten = l := by
  intro fuel
  induction fuel with
  | zero =>
    intro l hl
    have h0 : l = [] := List.eq_nil_of_length_eq_zero (Nat.le_zero.1 hl)
    subst h0
    simp [chunksAux]
  | succ fuel ih =>
    intro l hl
    cases l with
    | nil => simp [chunksAux]
    | cons x xs =>
      simp only [chunksAux, List.flatten_cons]
      rw [ih]
      · exact List.take_append_drop n (x :: xs)
      · rw [List.length_drop]
        simp only [List.length_cons] at hl ⊢
        omega

/-- The batches of a cycle cover the drained items exactly. -/
theorem chunks_flatten (n : Nat) (hn : 0 < n) (l : List α) : (chunks n l).flatten = l :=
  chunksAux_flatten n hn l.length l le_rfl

/-- C3: for every cycle, `synced_items + failed_items` equals the number of
items drained at the start (no drained item is left uncounted, whatever
per-item statuses the exchange returns, as long as each structured response
enumerates one entry per submitted item matched by `client_id`), and the
report's `success` flag is `true` iff `failed_items = 0`. -/
theorem claim_C3_cycleAccounting (st : DBState)
    (exchange : List SyncQueueItem → ExchangeResult) (batchSize now : Nat)
    (hbs : 0 < batchSize)
    (hresp : ∀ batch ∈ chunks batchSize (drainQueue st),
      responseMatches batch (exchange batch)) :
    ((sync st exchange batchSize now).1.synced_items +
      (sync st exchange batchSize now).1.failed_items = (drainQueue st).length) ∧
    ((sync st exchange batchSize now).1.success = true ↔
      (sync st exchange batchSize now).1.failed_items = 0) := by
  by_cases h0 : (drainQueue st).length = 0
  · constructor
    · simp [sync, h0]
    · simp [sync, h0]
  · have hfold := processBatch_foldl_counts exchange now
      (chunks batchSize (drainQueue st)) ({}, st) hresp
    have hsum : ((chunks batchSize (drainQueue st)).map List.length).sum
        = (drainQueue st).length := by
      rw [← List.length_flatten, chunks_flatten batchSize hbs]
    constructor
    · rw [hsum] at hfold
      simp only [sync, if_neg h0]
      simpa using hfold
    · simp only [sync, if_neg h0]
      simp

theorem claim_C3_witness :
    (sync stAB okExchange 50 3).1.synced_items +
      (sync stAB okExchange 50 3).1.failed_items = (drainQueue stAB).length := by
  refine (claim_C3_cycleAccounting stAB okExchange 50 3 (by decide) ?_).1
  intro b hb
  have hc : chunks 50 (drainQueue stAB) = [[itemA, itemB]] := by rfl
  rw [hc] at hb
  have hb2 : b = [itemA, itemB] := by simpa using hb
  subst hb2
  constructor
  · rfl
  · intro res hres
    have : res = ({ client_id := "a", server_id := "a", status := .success } : ProcessedItem)
        ∨ res = ({ client_id := "b", server_id := "b", status := .success } : ProcessedItem) := by
      simpa [okExchange, itemA, itemB] using hres
    rcases this with rfl | rfl <;> decide

/-- C5: a transport-level throw for a batch of `n` items fails each of the `n`
items individually — each queue row gets `retry_count + 1` and the error
message — `failed` grows by `n`, the error list gains `n` entries, and the fold
over batches continues with the remaining batches from the post-failure
state. -/
theorem claim_C5_transportFailure (exchange : List SyncQueueItem → ExchangeResult)
    (msg : String) (now : Nat) (a : SyncAccum) (st : DBState)
    (batch : List SyncQueueItem)
    (hex : exchange batch = .transportError msg)
    (hsub : ∀ it ∈ batch, it ∈ st.queue)
    (hpw : batch.Pairwise fun x y => x.id ≠ y.id) :
    ((processBatch exchange now (a, st) batch).1.failed = a.failed + batch.length) ∧
    ((processBatch exchange now (a, st) batch).1.errors.length =
      a.errors.length + batch.length) ∧
    (∀ it ∈ batch, bumpItem it msg ∈ (processBatch exchange now (a, st) batch).2.queue) ∧
    (∀ rest : List (List SyncQueueItem),
      (batch :: rest).foldl (processBatch exchange now) (a, st) =
        rest.foldl (processBatch exchange now) (processBatch exchange now (a, st) batch)) := by
  have hred : processBatch exchange now (a, st) batch =
      batch.foldl (batchFailStep msg now) (a, st) := by
    simp [processBatch, hex]
  refine ⟨?_, ?_, ?_, ?_⟩
  · rw [hred]
    exact (batchFail_foldl_counts msg now batch (a, st)).2.2.1
  · rw [hred]
    exact (batchFail_foldl_counts msg now batch (a, st)).2.2.2
  · rw [hred]
    exact batchFail_foldl_bumps msg now batch (a, st) hsub hpw
  · intro rest
    rw [List.foldl_cons]

theorem claim_C5_witness :
    (processBatch downExchange 3 ({}, stAB) [itemA, itemB]).1.failed = 2 := by
  simpa using (claim_C5_transportFailure downExchange "network down" 3 {} stAB
    [itemA, itemB] rfl (by decide) (by decide)).1

/-- C8 counterexample: with two drained items whose outcomes both come back
`success`, an injected local-write failure while applying the *first* outcome
is caught at batch granularity, not per item: the report counts *both* items
as failed (the claim's per-item catch would give `failed_items = 1`), nothing
is counted synced, and the second item's outcome is never applied (no task row
reaches `sync_status = synced`). -/
theorem claim_C8_counterexample :
    (syncE failA stAB okExchange 50 9).1.failed_items = 2 ∧
    (syncE failA stAB okExchange 50 9).1.synced_items = 0 ∧
    (∀ t ∈ (syncE failA stAB okExchange 50 9).2.tasks, t.sync_status ≠ .synced) := by
  decide

/-- C8 amended: a local read/update failure while applying one item's outcome
is caught at *batch* granularity: the loop stops applying the remaining
outcomes of that batch (`synced` stays at its value from before the throw),
every item of the batch is failed individually — `failed` and the error list
grow by the batch length and every batch item still in the queue gets its
`retry_count` incremented with the error message recorded — and no exception
escapes the cycle (the `catch` yields an ordinary accumulator for the next
batches). -/
theorem claim_C8_batchGranularity (failing : String → Bool)
    (exchange : List SyncQueueItem → ExchangeResult) (now : Nat)
    (a : SyncAccum) (st : DBState) (batch : List SyncQueueItem)
    (processed : List ProcessedItem) (acc1 : SyncAccum × DBState) (msg : String)
    (hex : exchange batch = .ok processed)
    (happ : applyOutcomesE failing batch now processed (a, st) = (acc1, some msg))
    (hsub : ∀ it ∈ batch, it ∈ acc1.2.queue)
    (hpw : batch.Pairwise fun x y => x.id ≠ y.id) :
    ((processBatchE failing exchange now (a, st) batch).1.failed =
      acc1.1.failed + batch.length) ∧
    ((processBatchE failing exchange now (a, st) batch).1.errors.length =
      acc1.1.errors.length + batch.length) ∧
    (∀ it ∈ batch,
      bumpItem it msg ∈ (processBatchE failing exchange now (a, st) batch).2.queue) ∧
    ((processBatchE failing exchange now (a, st) batch).1.synced = acc1.1.synced) := by
  have hred : processBatchE failing exchange now (a, st) batch =
      batch.foldl (batchFailStep msg now) acc1 := by
    simp [processBatchE, hex, happ]
  rw [hred]
  exact ⟨(batchFail_foldl_counts msg now batch acc1).2.2.1,
         (batchFail_foldl_counts msg now batch acc1).2.2.2,
         batchFail_foldl_bumps msg now batch acc1 hsub hpw,
         (batchFail_foldl_counts msg now batch acc1).1⟩

theorem claim_C8_batchGranularity_witness :
    (processBatchE failA okExchange 9 ({}, stAB) [itemA, itemB]).1.failed = 2 := by
  simpa using (claim_C8_batchGranularity failA okExchange 9 {} stAB [itemA, itemB]
    [{ client_id := "a", server_id := "a", status := .success },
     { client_id := "b", server_id := "b", status := .success }]
    ({}, stAB) "SQLITE_ERROR: cannot write task a"
    rfl (by decide) (by decide) (by decide)).1

end TaskSync
